import Mathlib

/-!
Shallow embedding of `src/plugin_manager/src/lib.rs` (crate `plugin_manager`).

Modelling conventions:
* `&dyn Any` execution contexts are opaque to the manager; they are modelled by
  the fixed inhabited type `Ctx`.  No claim depends on the context's shape.
* `HashMap` values are modelled by association lists.  `HashMap` guarantees key
  uniqueness; where a claim needs it, that invariant appears as a `Nodup`
  hypothesis on the key list.  Iteration order of a `HashMap` is unspecified,
  so the lists' order is left universally quantified.
* Rust's three ways out of a function — a normal value, a returned `Err`, and a
  `panic!`/`todo!`/`unwrap` unwind — are the three constructors of `Outcome`.
* The native loader (`libloading`) and the filesystem are outside the crate;
  they enter as an explicit environment `NativeEnv`.  `load_plugin` also
  returns the list of native-loader calls it performed, so that "no loader call
  was attempted" is expressible; the result component mirrors the source
  exactly.
* File input and output (`get_plugin_metadata` reads `CARGO_MANIFEST_PATH`) is
  cut at the value boundary: `activate_plugins` takes the `Metadata` that the
  read would have produced.
-/

/-- Opaque model of the `&dyn Any` execution context. -/
abbrev Ctx : Type := Nat

/-- The capability contract `Plugin` (trait object): a self-reported name and
an `execute` function.  `as_any` supports downcasts only and plays no role in
the claims, so it is not carried. -/
structure Plugin where
  name : String
  exec : Ctx → Except String Unit

/-- `PluginInfo`: a stored plugin together with its optional group tag. -/
structure PluginInfo where
  plugin : Plugin
  group : Option String

/-- `PluginEntry`: an individual path, or a group given by a map of
sub-name to path (`HashMap<String, PathString>` as an association list). -/
inductive PluginEntry where
  | individual (path : String)
  | group (entries : List (String × String))

/-- `Metadata`: the optional `[package.metadata.plugins]` table. -/
structure Metadata where
  plugins : Option (List (String × PluginEntry))

/-- The registry map `HashMap<String, PluginInfo>` as an association list. -/
abbrev Registry : Type := List (String × PluginInfo)

/-- `PluginManager`: the registry and the `with_path`-accumulated entries
(`Vec<HashMap<GroupOrName, PluginEntry>>`). -/
structure PluginManager where
  plugins : Registry
  plugin_path : List (List (String × PluginEntry))

/-- `PluginManager::new`. -/
def PluginManager.new : PluginManager := ⟨[], []⟩

/-- `HashMap::get` on the registry: the value stored under the (unique) key. -/
def lookupPlugin : Registry → String → Option PluginInfo
  | [], _ => none
  | (k, v) :: t, n => if k == n then some v else lookupPlugin t n

/-- `PluginManager::get_plugin`. -/
def PluginManager.get_plugin (m : PluginManager) (n : String) : Option PluginInfo :=
  lookupPlugin m.plugins n

/-- The three ways a Rust call ends: a normal value, a returned `Err`, or a
panic unwind (`panic!`, `todo!`, `Result::unwrap` on an `Err`). -/
inductive Outcome (ε α : Type) where
  | ok (a : α)
  | err (e : ε)
  | panicked (msg : String)

/-- `PluginManager::register_plugin`: keyed by the plugin's self-reported
`name()`; inserts when the entry is vacant, panics on a duplicate. -/
def PluginManager.register_plugin (m : PluginManager) (p : Plugin)
    (group : Option String) : Outcome String PluginManager :=
  match lookupPlugin m.plugins p.name with
  | none => .ok { m with plugins := m.plugins ++ [(p.name, ⟨p, group⟩)] }
  | some _ => .panicked ("Plugin \x27" ++ p.name ++ "\x27 already registered")

/-- `HashMap::remove`: the removed value (if any) and the remaining map. -/
def removeEntry : Registry → String → Option PluginInfo × Registry
  | [], _ => (none, [])
  | (k, v) :: t, n =>
    if k == n then (some v, t)
    else
      let r := removeEntry t n
      (r.1, (k, v) :: r.2)

/-- `PluginManager::deregister_plugin`: removes the entry and reports the
*stored* plugin's `name()` (not the queried key). -/
def PluginManager.deregister_plugin (m : PluginManager) (n : String) :
    Option String × PluginManager :=
  let r := removeEntry m.plugins n
  ((match r.1 with
    | none => none
    | some plugin_info => some plugin_info.plugin.name),
   { m with plugins := r.2 })

/-- `PluginManager::deregister_all_plugins`: drains the registry, returning
the removed keys. -/
def PluginManager.deregister_all_plugins (m : PluginManager) :
    List String × PluginManager :=
  (m.plugins.map (fun e => e.1), { m with plugins := [] })

/-- `PluginManager::execute_plugin`: look up, then delegate to the stored
plugin's `execute`; a miss yields the not-found error. -/
def PluginManager.execute_plugin (m : PluginManager) (n : String) (c : Ctx) :
    Except String Unit :=
  match m.get_plugin n with
  | some plugin_info => plugin_info.plugin.exec c
  | none => .error ("Plugin \x27" ++ n ++ "\x27 not found")

/-- Opaque handle standing for `libloading::Library`. -/
abbrev Library : Type := Nat

/-- The native loader and filesystem, external to the crate: file existence,
`Library::new`, resolution of the `create_plugins` symbol on a loaded library,
and the effect of invoking that symbol. -/
structure NativeEnv where
  pathExists : String → Bool
  libraryNew : String → Except String Library
  getCreateSymbol : Library → Except String Unit
  createPlugins : Library → List Plugin

/-- A call into the native loader, recorded in order. -/
inductive LoaderCall where
  | libraryNew (path : String)
  | getSymbol
  | invokeCreate

/-- `PluginManager::load_plugin` (`&self` is unused by the source body and is
dropped).  First component: the source's `PluginResult`.  Second component:
the native-loader calls performed, in order. -/
def PluginManager.load_plugin (env : NativeEnv) (filename : String) :
    Except String (Library × List Plugin) × List LoaderCall :=
  if env.pathExists filename = false then
    (.error ("Plugin file does not exist: " ++ filename), [])
  else
    match env.libraryNew filename with
    | .error e => (.error e, [.libraryNew filename])
    | .ok library =>
      match env.getCreateSymbol library with
      | .error e => (.error e, [.libraryNew filename, .getSymbol])
      | .ok _ =>
        (.ok (library, env.createPlugins library),
         [.libraryNew filename, .getSymbol, .invokeCreate])

/-- `PluginManager::register_plugins_vec`: registers each plugin in turn; a
panic (duplicate identity) aborts the iteration. -/
def register_plugins_vec (l : List Plugin) (group : Option String)
    (m : PluginManager) : Outcome String PluginManager :=
  match l with
  | [] => .ok m
  | p :: t =>
    match m.register_plugin p group with
    | .ok m' => register_plugins_vec t group m'
    | .err e => .err e
    | .panicked msg => .panicked msg

/-- The `Group` arm of `activation_registration`: `for_each` over the
sub-entries; the load result is `.unwrap()`ed, so a load failure panics
instead of being returned. -/
def activateGroupEntries (env : NativeEnv) (group_or_name : String) :
    List (String × String) → PluginManager → Outcome String PluginManager
  | [], m => .ok m
  | (_, path) :: t, m =>
    match (PluginManager.load_plugin env path).1 with
    | .error e => .panicked ("called Result::unwrap() on an Err value: " ++ e)
    | .ok lp =>
      match register_plugins_vec lp.2 (some group_or_name) m with
      | .ok m' => activateGroupEntries env group_or_name t m'
      | .err e => .err e
      | .panicked msg => .panicked msg

/-- `PluginManager::activation_registration`: an `Individual` load failure is
propagated with `?`; a `Group` sub-path failure panics (see
`activateGroupEntries`).  Successful loads are registered with `None` resp.
`Some(group_or_name)`. -/
def activation_registration (env : NativeEnv) (m : PluginManager)
    (group_or_name : String) (plugin_entry : PluginEntry) :
    Outcome String PluginManager :=
  match plugin_entry with
  | .individual path =>
    match (PluginManager.load_plugin env path).1 with
    | .error e => .err e
    | .ok lp =>
      match register_plugins_vec lp.2 none m with
      | .ok m' => .ok m'
      | .err e => .err e
      | .panicked msg => .panicked msg
  | .group group_plugins => activateGroupEntries env group_or_name group_plugins m

/-- The registration loop at the end of `activate_plugins`. -/
def activateEntries (env : NativeEnv) :
    List (String × PluginEntry) → PluginManager → Outcome String PluginManager
  | [], m => .ok m
  | (gn, e) :: t, m =>
    match activation_registration env m gn e with
    | .ok m' => activateEntries env t m'
    | .err er => .err er
    | .panicked msg => .panicked msg

/-- `PluginManager::activate_plugins`, with the `Metadata` that
`get_plugin_metadata` would have read passed in explicitly.  A missing
plugins table is a returned error; otherwise the manifest entries followed by
the `with_path`-accumulated entries are processed in order. -/
def activate_plugins (env : NativeEnv) (meta_data : Metadata)
    (m : PluginManager) : Outcome String PluginManager :=
  match meta_data.plugins with
  | none => .err "No plugin metadata found in manifest"
  | some plugin_config =>
    activateEntries env (plugin_config ++ m.plugin_path.flatten) m

/-- The two `std::io::ErrorKind`s `with_path` can produce. -/
inductive IOErrorKind where
  | notFound
  | invalidData

/-- `Path::new(s).to_str()` for `s : &str`: a `&str` is valid UTF-8, so this
is always `Some` of the same string (the `InvalidData` arm of `with_path` is
unreachable for `&str` input). -/
def pathToStr (s : String) : Option String := some s

/-- `PluginManager::with_path`: records a group entry (note the source stores
the pair as path ↦ group) when a group is given; the no-group arm is
`todo!()`, i.e. a panic; a nonexistent path is a `NotFound` error. -/
def with_path (m : PluginManager) (env : NativeEnv) (path : String)
    (group : Option String) : Outcome (IOErrorKind × String) PluginManager :=
  if env.pathExists path then
    match pathToStr path with
    | none => .err (.invalidData, "Path contains invalid Unicode")
    | some path_string =>
      match group with
      | some group_string =>
        let group_info :=
          [(group_string, PluginEntry.group [(path_string, group_string)])]
        .ok { m with plugin_path := m.plugin_path ++ [group_info] }
      | none => .panicked "not yet implemented"
  else
    .err (.notFound, "FileNotFoundError: " ++ path)

/-! ### Helper lemmas about the registry operations -/

theorem lookupPlugin_eq_none (reg : Registry) (s : String)
    (h : s ∉ reg.map Prod.fst) : lookupPlugin reg s = none := by
  induction reg with
  | nil => rfl
  | cons hd t ih =>
    obtain ⟨k, v⟩ := hd
    simp only [List.map_cons, List.mem_cons] at h
    push_neg at h
    simp only [lookupPlugin]
    rw [if_neg, ih h.2]
    intro hk
    exact h.1 (eq_of_beq hk).symm

theorem lookupPlugin_mem (reg : Registry) (s : String) (info : PluginInfo)
    (h : lookupPlugin reg s = some info) : (s, info) ∈ reg := by
  induction reg with
  | nil => cases h
  | cons hd t ih =>
    obtain ⟨k, v⟩ := hd
    simp only [lookupPlugin] at h
    by_cases hk : (k == s) = true
    · rw [if_pos hk] at h
      cases h
      exact (eq_of_beq hk) ▸ List.mem_cons_self _ _
    · rw [if_neg hk] at h
      exact List.mem_cons_of_mem _ (ih h)

theorem removeEntry_fst (reg : Registry) (s : String) :
    (removeEntry reg s).1 = lookupPlugin reg s := by
  induction reg with
  | nil => rfl
  | cons hd t ih =>
    obtain ⟨k, v⟩ := hd
    simp only [removeEntry, lookupPlugin]
    by_cases hk : (k == s) = true
    · rw [if_pos hk, if_pos hk]
    · rw [if_neg hk, if_neg hk]
      exact ih

theorem removeEntry_of_absent (reg : Registry) (s : String)
    (h : lookupPlugin reg s = none) : removeEntry reg s = (none, reg) := by
  induction reg with
  | nil => rfl
  | cons hd t ih =>
    obtain ⟨k, v⟩ := hd
    simp only [lookupPlugin] at h
    simp only [removeEntry]
    by_cases hk : (k == s) = true
    · rw [if_pos hk] at h
      cases h
    · rw [if_neg hk] at h
      rw [if_neg hk, ih h]

theorem removeEntry_mem (reg : Registry) (s : String) (e : String × PluginInfo)
    (h : e ∈ (removeEntry reg s).2) : e ∈ reg := by
  induction reg with
  | nil => cases h
  | cons hd t ih =>
    obtain ⟨k, v⟩ := hd
    simp only [removeEntry] at h
    by_cases hk : (k == s) = true
    · rw [if_pos hk] at h
      exact List.mem_cons_of_mem _ h
    · rw [if_neg hk] at h
      rcases List.mem_cons.mp h with h1 | h2
      · exact h1 ▸ List.mem_cons_self _ _
      · exact List.mem_cons_of_mem _ (ih h2)

theorem lookupPlugin_removeEntry_self (reg : Registry) (s : String)
    (hnd : (reg.map Prod.fst).Nodup) :
    lookupPlugin (removeEntry reg s).2 s = none := by
  induction reg with
  | nil => rfl
  | cons hd t ih =>
    obtain ⟨k, v⟩ := hd
    simp only [List.map_cons, List.nodup_cons] at hnd
    simp only [removeEntry]
    by_cases hk : (k == s) = true
    · rw [if_pos hk]
      apply lookupPlugin_eq_none
      rw [← eq_of_beq hk]
      exact hnd.1
    · rw [if_neg hk]
      simp only [lookupPlugin]
      rw [if_neg hk]
      exact ih hnd.2

theorem lookupPlugin_append_singleton (reg : Registry) (e : String × PluginInfo)
    (k : String) (info : PluginInfo)
    (h : lookupPlugin (reg ++ [e]) k = some info) :
    lookupPlugin reg k = some info ∨ info = e.2 := by
  induction reg with
  | nil =>
    simp only [List.nil_append, lookupPlugin] at h
    by_cases hk : (e.1 == k) = true
    · rw [if_pos hk] at h
      cases h
      exact Or.inr rfl
    · rw [if_neg hk] at h
      cases h
  | cons hd t ih =>
    obtain ⟨k', v'⟩ := hd
    simp only [List.cons_append, lookupPlugin] at h ⊢
    by_cases hk : (k' == k) = true
    · rw [if_pos hk] at h ⊢
      exact Or.inl h
    · rw [if_neg hk] at h ⊢
      exact ih h

theorem register_plugin_ok (m m' : PluginManager) (p : Plugin)
    (g : Option String) (h : m.register_plugin p g = .ok m') :
    lookupPlugin m.plugins p.name = none ∧
      m' = { m with plugins := m.plugins ++ [(p.name, ⟨p, g⟩)] } := by
  unfold PluginManager.register_plugin at h
  cases hl : lookupPlugin m.plugins p.name with
  | none =>
    rw [hl] at h
    cases h
    exact ⟨rfl, rfl⟩
  | some info =>
    rw [hl] at h
    cases h

theorem register_plugins_vec_ne_err (l : List Plugin) (g : Option String)
    (m : PluginManager) (e : String) : register_plugins_vec l g m ≠ .err e := by
  induction l generalizing m with
  | nil => simp [register_plugins_vec]
  | cons p t ih =>
    simp only [register_plugins_vec]
    cases hr : m.register_plugin p g with
    | ok m' => exact ih m'
    | err e' =>
      unfold PluginManager.register_plugin at hr
      cases hl : lookupPlugin m.plugins p.name with
      | none => rw [hl] at hr; cases hr
      | some info => rw [hl] at hr; cases hr
    | panicked msg => intro h; cases h

theorem register_plugins_vec_ok_lookup (l : List Plugin) (g : Option String)
    (m m' : PluginManager) (h : register_plugins_vec l g m = .ok m')
    (k : String) (info : PluginInfo)
    (hlk : lookupPlugin m'.plugins k = some info) :
    lookupPlugin m.plugins k = some info ∨ info.group = g := by
  induction l generalizing m with
  | nil =>
    simp only [register_plugins_vec] at h
    cases h
    exact Or.inl hlk
  | cons p t ih =>
    simp only [register_plugins_vec] at h
    cases hr : m.register_plugin p g with
    | ok m₁ =>
      rw [hr] at h
      obtain ⟨-, hm₁⟩ := register_plugin_ok m m₁ p g hr
      rcases ih m₁ h with h1 | h2
      · rw [hm₁] at h1
        rcases lookupPlugin_append_singleton _ _ _ _ h1 with h3 | h4
        · exact Or.inl h3
        · exact Or.inr (by rw [h4])
      · exact Or.inr h2
    | err e' => rw [hr] at h; cases h
    | panicked msg => rw [hr] at h; cases h

theorem activateGroupEntries_ok_lookup (env : NativeEnv) (G : String)
    (l : List (String × String)) (m m' : PluginManager)
    (h : activateGroupEntries env G l m = .ok m') (k : String)
    (info : PluginInfo) (hlk : lookupPlugin m'.plugins k = some info) :
    lookupPlugin m.plugins k = some info ∨ info.group = some G := by
  induction l generalizing m with
  | nil =>
    simp only [activateGroupEntries] at h
    cases h
    exact Or.inl hlk
  | cons e t ih =>
    obtain ⟨n, path⟩ := e
    simp only [activateGroupEntries] at h
    cases hload : (PluginManager.load_plugin env path).1 with
    | error er => rw [hload] at h; simp only at h; cases h
    | ok lp =>
      rw [hload] at h
      simp only at h
      cases hr : register_plugins_vec lp.2 (some G) m with
      | ok m₁ =>
        rw [hr] at h
        simp only at h
        rcases ih m₁ h with h1 | h2
        · exact register_plugins_vec_ok_lookup _ _ _ _ hr _ _ h1
        · exact Or.inr h2
      | err e' => rw [hr] at h; simp only at h; cases h
      | panicked msg => rw [hr] at h; simp only at h; cases h

theorem activateGroupEntries_panics (env : NativeEnv) (G : String)
    (l : List (String × String)) (m : PluginManager)
    (hfail : ∃ e ∈ l, ∃ er, (PluginManager.load_plugin env e.2).1 = .error er) :
    ∃ msg, activateGroupEntries env G l m = .panicked msg := by
  induction l generalizing m with
  | nil =>
    obtain ⟨e, he, -⟩ := hfail
    cases he
  | cons hd t ih =>
    obtain ⟨n, path⟩ := hd
    simp only [activateGroupEntries]
    cases hload : (PluginManager.load_plugin env path).1 with
    | error er => exact ⟨_, rfl⟩
    | ok lp =>
      simp only
      obtain ⟨e, he, er, her⟩ := hfail
      rcases List.mem_cons.mp he with h1 | h2
      · rw [h1] at her
        simp only at her
        rw [her] at hload
        cases hload
      · cases hr : register_plugins_vec lp.2 (some G) m with
        | ok m₁ => exact ih m₁ ⟨e, h2, er, her⟩
        | err e' => exact absurd hr (register_plugins_vec_ne_err _ _ _ _)
        | panicked msg => exact ⟨msg, rfl⟩

theorem activateEntries_ne_ok_of_group_fail (env : NativeEnv)
    (L : List (String × PluginEntry)) (G : String)
    (l : List (String × String)) (m : PluginManager)
    (hmem : (G, PluginEntry.group l) ∈ L)
    (hfail : ∃ e ∈ l, ∃ er, (PluginManager.load_plugin env e.2).1 = .error er)
    (m' : PluginManager) : activateEntries env L m ≠ .ok m' := by
  induction L generalizing m with
  | nil => cases hmem
  | cons hd t ih =>
    obtain ⟨gn, entry⟩ := hd
    simp only [activateEntries]
    cases hreg : activation_registration env m gn entry with
    | ok m₁ =>
      simp only
      rcases List.mem_cons.mp hmem with h1 | h2
      · injection h1 with hgn hentry
        subst hgn
        subst hentry
        simp only [activation_registration] at hreg
        obtain ⟨msg, hmsg⟩ := activateGroupEntries_panics env G l m hfail
        rw [hmsg] at hreg
        cases hreg
      · exact ih m₁ h2
    | err er => simp
    | panicked msg => simp

/-- The registry invariant behind C5 and C9: every key is the stored plugin's
self-reported `name()`. -/
def registryKeyed (reg : Registry) : Prop :=
  ∀ e ∈ reg, e.2.plugin.name = e.1

theorem deregister_fst_of_keyed (m : PluginManager) (s : String)
    (hwf : registryKeyed m.plugins)
    (hs : (lookupPlugin m.plugins s).isSome) :
    (m.deregister_plugin s).1 = some s := by
  cases hl : lookupPlugin m.plugins s with
  | none => rw [hl] at hs; simp at hs
  | some info =>
    have hne := hwf (s, info) (lookupPlugin_mem _ _ _ hl)
    simp only [PluginManager.deregister_plugin]
    rw [removeEntry_fst, hl]
    simp only at hne ⊢
    rw [hne]

/-! ### Concrete data used by the witnesses -/

/-- A concrete plugin whose `name()` is `plugin_a`. -/
def pluginA : Plugin := ⟨"plugin_a", fun _ => .ok ()⟩

/-- A concrete plugin whose `name()` is `plugin_b` and whose `execute` fails. -/
def pluginB : Plugin := ⟨"plugin_b", fun _ => .error "exec failed"⟩

/-- A manager holding only `pluginA`, ungrouped. -/
def mgrA : PluginManager := ⟨[("plugin_a", ⟨pluginA, none⟩)], []⟩

/-- A manager holding `pluginA` (ungrouped) and `pluginB` (group `g`). -/
def mgrAB : PluginManager :=
  ⟨[("plugin_a", ⟨pluginA, none⟩), ("plugin_b", ⟨pluginB, some "g"⟩)], []⟩

theorem mgrAB_keyed : registryKeyed mgrAB.plugins := by
  intro e he
  simp only [mgrAB, List.mem_cons, List.not_mem_nil, or_false] at he
  rcases he with h | h <;> subst h <;> rfl

/-- An environment in which no path exists. -/
def envNoFiles : NativeEnv :=
  ⟨fun _ => false, fun _ => .error "no loader", fun _ => .ok (), fun _ => []⟩

/-- An environment in which every path exists and every load yields the one
plugin `pluginA`. -/
def envOnePlugin : NativeEnv :=
  ⟨fun _ => true, fun _ => .ok 0, fun _ => .ok (), fun _ => [pluginA]⟩

/-- An environment in which every path exists but `Library::new` fails. -/
def envLoadFails : NativeEnv :=
  ⟨fun _ => true, fun _ => .error "boom", fun _ => .ok (), fun _ => []⟩

/-- A manifest with a single group entry naming one sub-path. -/
def metaGroupBad : Metadata :=
  ⟨some [("inventory", .group [("inventory_a", "/bad.so")])]⟩

/-! ### The claims -/

/-- C2: registering a plugin whose identity (`name()`) is already a key of the
registry panics — for any group argument — and never overwrites the stored
entry; when the identity is vacant, the plugin is inserted under its own name
and the call returns normally. -/
theorem C2_register_plugin_duplicate_fatal (m : PluginManager) (p : Plugin)
    (g : Option String) :
    ((lookupPlugin m.plugins p.name).isSome →
      m.register_plugin p g =
        .panicked ("Plugin \x27" ++ p.name ++ "\x27 already registered")) ∧
    (lookupPlugin m.plugins p.name = none →
      m.register_plugin p g =
        .ok { m with plugins := m.plugins ++ [(p.name, ⟨p, g⟩)] }) := by
  constructor
  · intro h
    unfold PluginManager.register_plugin
    cases hl : lookupPlugin m.plugins p.name with
    | none => rw [hl] at h; simp at h
    | some info => rfl
  · intro h
    unfold PluginManager.register_plugin
    rw [h]

theorem C2_register_plugin_duplicate_fatal_witness :
    mgrA.register_plugin pluginA (some "g") =
      .panicked ("Plugin \x27" ++ pluginA.name ++ "\x27 already registered") ∧
    PluginManager.new.register_plugin pluginA none =
      .ok { PluginManager.new with
              plugins := PluginManager.new.plugins ++
                [(pluginA.name, ⟨pluginA, none⟩)] } :=
  ⟨(C2_register_plugin_duplicate_fatal mgrA pluginA (some "g")).1 rfl,
   (C2_register_plugin_duplicate_fatal PluginManager.new pluginA none).2 rfl⟩

/-- C3: for a path that does not exist, `load_plugin` returns the
file-not-found error and performs no native-loader call at all (the recorded
loader-call trace is empty): the existence check precedes any loader call. -/
theorem C3_load_plugin_missing_file (env : NativeEnv) (filename : String)
    (h : env.pathExists filename = false) :
    PluginManager.load_plugin env filename =
      (.error ("Plugin file does not exist: " ++ filename), []) := by
  unfold PluginManager.load_plugin
  rw [h]
  simp

theorem C3_load_plugin_missing_file_witness :
    PluginManager.load_plugin envNoFiles "/missing.so" =
      (.error ("Plugin file does not exist: " ++ "/missing.so"), []) :=
  C3_load_plugin_missing_file envNoFiles "/missing.so" rfl

/-- C5: on a registry satisfying the `HashMap` key-uniqueness invariant and
the key = `name()` invariant, `deregister_plugin s` returns `some s` and
removes the entry when `s` is registered; returns `none` with no state change
when it is absent; afterwards `get_plugin s` is `none`, and a repeated
`deregister_plugin s` returns `none` and changes nothing. -/
theorem C5_deregister_plugin_spec (m : PluginManager) (s : String)
    (hnd : (m.plugins.map Prod.fst).Nodup)
    (hwf : registryKeyed m.plugins) :
    ((lookupPlugin m.plugins s).isSome → (m.deregister_plugin s).1 = some s) ∧
    (lookupPlugin m.plugins s = none →
      (m.deregister_plugin s).1 = none ∧ (m.deregister_plugin s).2 = m) ∧
    (m.deregister_plugin s).2.get_plugin s = none ∧
    ((m.deregister_plugin s).2.deregister_plugin s).1 = none ∧
    ((m.deregister_plugin s).2.deregister_plugin s).2 =
      (m.deregister_plugin s).2 := by
  have h3 : lookupPlugin (removeEntry m.plugins s).2 s = none :=
    lookupPlugin_removeEntry_self m.plugins s hnd
  refine ⟨deregister_fst_of_keyed m s hwf, ?_, ?_, ?_, ?_⟩
  · intro h0
    have hre := removeEntry_of_absent m.plugins s h0
    simp only [PluginManager.deregister_plugin]
    rw [hre]
    exact ⟨rfl, rfl⟩
  · simp only [PluginManager.deregister_plugin, PluginManager.get_plugin]
    exact h3
  · simp only [PluginManager.deregister_plugin]
    rw [removeEntry_fst]
    rw [h3]
  · simp only [PluginManager.deregister_plugin]
    rw [removeEntry_of_absent _ _ h3]

theorem C5_deregister_plugin_spec_witness :
    (mgrAB.deregister_plugin "plugin_a").1 = some "plugin_a" ∧
    (mgrAB.deregister_plugin "zzz").1 = none ∧
    (mgrAB.deregister_plugin "zzz").2 = mgrAB ∧
    (mgrAB.deregister_plugin "plugin_a").2.get_plugin "plugin_a" = none := by
  have hnd : (mgrAB.plugins.map Prod.fst).Nodup := by decide
  have h1 := C5_deregister_plugin_spec mgrAB "plugin_a" hnd mgrAB_keyed
  have h2 := C5_deregister_plugin_spec mgrAB "zzz" hnd mgrAB_keyed
  exact ⟨h1.1 rfl, (h2.2.1 rfl).1, (h2.2.1 rfl).2, h1.2.2.1⟩

/-- C6: `deregister_all_plugins` leaves the registry empty and returns
exactly the list of keys registered before the call, whose length equals the
registry's former size. -/
theorem C6_deregister_all_plugins_spec (m : PluginManager) :
    (m.deregister_all_plugins).2.plugins = [] ∧
    (m.deregister_all_plugins).1 = m.plugins.map Prod.fst ∧
    (m.deregister_all_plugins).1.length = m.plugins.length := by
  refine ⟨rfl, rfl, ?_⟩
  simp [PluginManager.deregister_all_plugins]

/-- C7: when the resolved metadata has no plugins table,
`activate_plugins` returns the descriptive error rather than succeeding with
an empty registry. -/
theorem C7_activate_plugins_missing_manifest (env : NativeEnv)
    (m : PluginManager) :
    activate_plugins env ⟨none⟩ m =
      .err "No plugin metadata found in manifest" := rfl

/-- C8: `execute_plugin` delegates to the registered plugin's `execute` on
the given context when the identifier is registered, and returns the
not-found error (without reaching any plugin's `execute`) when it is
absent. -/
theorem C8_execute_plugin_spec (m : PluginManager) (s : String) (c : Ctx) :
    (∀ info, m.get_plugin s = some info →
      m.execute_plugin s c = info.plugin.exec c) ∧
    (m.get_plugin s = none →
      m.execute_plugin s c =
        .error ("Plugin \x27" ++ s ++ "\x27 not found")) := by
  constructor
  · intro info h
    unfold PluginManager.execute_plugin
    rw [h]
  · intro h
    unfold PluginManager.execute_plugin
    rw [h]

theorem C8_execute_plugin_spec_witness :
    mgrAB.execute_plugin "plugin_a" 0 =
      (PluginInfo.mk pluginA none).plugin.exec 0 ∧
    mgrAB.execute_plugin "zzz" 0 =
      .error ("Plugin \x27" ++ "zzz" ++ "\x27 not found") :=
  ⟨(C8_execute_plugin_spec mgrAB "plugin_a" 0).1 ⟨pluginA, none⟩ rfl,
   (C8_execute_plugin_spec mgrAB "zzz" 0).2 rfl⟩

/-- C9: the invariant "every registry key equals the stored plugin's
self-reported `name()`" holds of the fresh manager and is preserved by
`register_plugin` (on success), `deregister_plugin`, and
`deregister_all_plugins` (the lookups do not mutate the registry);
consequently on such a registry `deregister_plugin` returns exactly the key
it removed, even though the source reads the name off the stored plugin. -/
theorem C9_registry_key_invariant :
    registryKeyed PluginManager.new.plugins ∧
    (∀ (m m' : PluginManager) (p : Plugin) (g : Option String),
      registryKeyed m.plugins → m.register_plugin p g = .ok m' →
      registryKeyed m'.plugins) ∧
    (∀ (m : PluginManager) (s : String),
      registryKeyed m.plugins →
      registryKeyed (m.deregister_plugin s).2.plugins) ∧
    (∀ (m : PluginManager),
      registryKeyed (m.deregister_all_plugins).2.plugins) ∧
    (∀ (m : PluginManager) (s : String),
      registryKeyed m.plugins → (lookupPlugin m.plugins s).isSome →
      (m.deregister_plugin s).1 = some s) := by
  refine ⟨?_, ?_, ?_, ?_, ?_⟩
  · intro e he
    cases he
  · intro m m' p g hwf hr
    obtain ⟨-, hm'⟩ := register_plugin_ok m m' p g hr
    subst hm'
    intro e he
    rcases List.mem_append.mp he with h1 | h2
    · exact hwf e h1
    · simp only [List.mem_cons, List.not_mem_nil, or_false] at h2
      subst h2
      rfl
  · intro m s hwf e he
    exact hwf e (removeEntry_mem m.plugins s e he)
  · intro m e he
    cases he
  · exact fun m s hwf hs => deregister_fst_of_keyed m s hwf hs

theorem C9_registry_key_invariant_witness :
    registryKeyed (mgrAB.deregister_plugin "plugin_a").2.plugins ∧
    (mgrAB.deregister_plugin "plugin_a").1 = some "plugin_a" :=
  ⟨C9_registry_key_invariant.2.2.1 mgrAB "plugin_a" mgrAB_keyed,
   C9_registry_key_invariant.2.2.2.2 mgrAB "plugin_a" mgrAB_keyed rfl⟩

/-- C10: `with_path` on an existing path with no group hits the `todo!()`
panic (the individual-plugin branch is unimplemented); only the
`Some(group)` branch (which records the path) and the nonexistent-path
branch (a `NotFound` error) return normally. -/
theorem C10_with_path_none_panics (m : PluginManager) (env : NativeEnv)
    (p : String) :
    (env.pathExists p = true →
      with_path m env p none = .panicked "not yet implemented") ∧
    (env.pathExists p = true → ∀ g,
      with_path m env p (some g) =
        .ok { m with plugin_path :=
                m.plugin_path ++ [[(g, PluginEntry.group [(p, g)])]] }) ∧
    (env.pathExists p = false → ∀ go,
      with_path m env p go =
        .err (.notFound, "FileNotFoundError: " ++ p)) := by
  refine ⟨?_, ?_, ?_⟩
  · intro h
    simp [with_path, h, pathToStr]
  · intro h g
    simp [with_path, h, pathToStr]
  · intro h go
    simp [with_path, h]

theorem C10_with_path_none_panics_witness :
    with_path PluginManager.new envOnePlugin "/p.so" none =
      .panicked "not yet implemented" ∧
    with_path PluginManager.new envOnePlugin "/p.so" (some "g") =
      .ok { PluginManager.new with plugin_path :=
              PluginManager.new.plugin_path ++
                [[("g", PluginEntry.group [("/p.so", "g")])]] } ∧
    with_path PluginManager.new envNoFiles "/p.so" none =
      .err (.notFound, "FileNotFoundError: " ++ "/p.so") :=
  ⟨(C10_with_path_none_panics PluginManager.new envOnePlugin "/p.so").1 rfl,
   (C10_with_path_none_panics PluginManager.new envOnePlugin "/p.so").2.1 rfl "g",
   (C10_with_path_none_panics PluginManager.new envNoFiles "/p.so").2.2 rfl none⟩

/-- C4: when `activation_registration` succeeds on a `Group` entry with tag
`G`, every registry entry of the result is either a pre-existing entry or has
`group = some G` — whatever the sub-names in the manifest were (they are
never consulted for registration); when it succeeds on an `Individual`
entry, every new entry has `group = none`. -/
theorem C4_group_assignment (env : NativeEnv) :
    (∀ (m m' : PluginManager) (G : String) (l : List (String × String)),
      activation_registration env m G (.group l) = .ok m' →
      ∀ k info, lookupPlugin m'.plugins k = some info →
        lookupPlugin m.plugins k = some info ∨ info.group = some G) ∧
    (∀ (m m' : PluginManager) (gn path : String),
      activation_registration env m gn (.individual path) = .ok m' →
      ∀ k info, lookupPlugin m'.plugins k = some info →
        lookupPlugin m.plugins k = some info ∨ info.group = none) := by
  constructor
  · intro m m' G l h k info hlk
    simp only [activation_registration] at h
    exact activateGroupEntries_ok_lookup env G l m m' h k info hlk
  · intro m m' gn path h k info hlk
    simp only [activation_registration] at h
    cases hload : (PluginManager.load_plugin env path).1 with
    | error e => rw [hload] at h; simp only at h; cases h
    | ok lp =>
      rw [hload] at h
      simp only at h
      cases hr : register_plugins_vec lp.2 none m with
      | ok m₁ =>
        rw [hr] at h
        simp only at h
        injection h with h
        subst h
        exact register_plugins_vec_ok_lookup _ _ _ _ hr _ _ hlk
      | err e => rw [hr] at h; simp only at h; cases h
      | panicked msg => rw [hr] at h; simp only at h; cases h

theorem C4_group_assignment_witness :
    (lookupPlugin PluginManager.new.plugins "plugin_a" =
        some ⟨pluginA, some "inventory"⟩ ∨
      (PluginInfo.mk pluginA (some "inventory")).group = some "inventory") ∧
    (lookupPlugin PluginManager.new.plugins "plugin_a" =
        some ⟨pluginA, none⟩ ∨
      (PluginInfo.mk pluginA none).group = none) :=
  ⟨(C4_group_assignment envOnePlugin).1 PluginManager.new
      ⟨[("plugin_a", ⟨pluginA, some "inventory"⟩)], []⟩ "inventory"
      [("inventory_a", "/inv.so")] rfl "plugin_a" ⟨pluginA, some "inventory"⟩ rfl,
   (C4_group_assignment envOnePlugin).2 PluginManager.new
      ⟨[("plugin_a", ⟨pluginA, none⟩)], []⟩ "plugin_a" "/a.so" rfl
      "plugin_a" ⟨pluginA, none⟩ rfl⟩

/-- C1 counterexample: a manifest with one `Group` entry whose single
sub-path fails at `Library::new` with error `boom`.  `activate_plugins`
terminates by panic (the `Group` arm calls `.unwrap()` on the load result
inside `for_each`) — it does not return the underlying load error `boom` to
the caller, refuting the claim as stated. -/
theorem C1_counterexample :
    activate_plugins envLoadFails metaGroupBad PluginManager.new =
      .panicked ("called Result::unwrap() on an Err value: " ++ "boom") ∧
    activate_plugins envLoadFails metaGroupBad PluginManager.new ≠
      .err "boom" := by
  have h1 : activate_plugins envLoadFails metaGroupBad PluginManager.new =
      .panicked ("called Result::unwrap() on an Err value: " ++ "boom") := rfl
  refine ⟨h1, ?_⟩
  intro h
  rw [h1] at h
  cases h

/-- C1 amended: if loading any sub-path of a `Group` entry of the manifest
fails, the whole activation still aborts with no partial success
(`activate_plugins` never returns `Ok`), but it terminates by panic when the
group entry is processed (the `.unwrap()` inside `for_each`) rather than
returning the underlying load error; only `Individual`-entry load failures
are returned as errors. -/
theorem C1_group_load_failure_aborts (env : NativeEnv) (meta_data : Metadata)
    (cfg : List (String × PluginEntry)) (m : PluginManager) (G : String)
    (l : List (String × String))
    (hcfg : meta_data.plugins = some cfg)
    (hmem : (G, PluginEntry.group l) ∈ cfg)
    (hfail : ∃ e ∈ l, ∃ er,
      (PluginManager.load_plugin env e.2).1 = .error er) :
    (∀ m', activate_plugins env meta_data m ≠ .ok m') ∧
    (∀ m₀, ∃ msg,
      activation_registration env m₀ G (.group l) = .panicked msg) := by
  constructor
  · intro m'
    unfold activate_plugins
    rw [hcfg]
    simp only
    exact activateEntries_ne_ok_of_group_fail env _ G l m
      (List.mem_append.mpr (Or.inl hmem)) hfail m'
  · intro m₀
    have h := activateGroupEntries_panics env G l m₀ hfail
    simpa only [activation_registration] using h

theorem C1_group_load_failure_aborts_witness :
    activate_plugins envLoadFails metaGroupBad PluginManager.new ≠
      .ok PluginManager.new :=
  (C1_group_load_failure_aborts envLoadFails metaGroupBad
      [("inventory", .group [("inventory_a", "/bad.so")])] PluginManager.new
      "inventory" [("inventory_a", "/bad.so")] rfl
      (List.mem_singleton.mpr rfl)
      ⟨("inventory_a", "/bad.so"), List.mem_singleton.mpr rfl, "boom",
        rfl⟩).1 PluginManager.new
